import Mathlib

/-!
# The Social Hub: profile page, event service client, admin router

A shallow embedding of three source files:

* `client/src/pages/Profile.jsx`: the React component `Profile`.  Its `useState`
  cells become the record `State`; every `async` function is cut at its `await`
  points into a part that runs when it is called and a part that runs when the
  awaited promise settles; the `useEffect` callbacks run in `commitEffects`, in
  declaration order, each one only when one of its dependencies differs from the
  value recorded at the previous pass, and each one reading the values of the
  render it belongs to.  The state updates made by one continuation are applied
  together.  `step` is one event on the mounted page (an effects pass, the
  timeout, a user action, a promise settling) and `run` a sequence of events.
* `client/src/services/eventService.js`: `getAllEvents`, `getEventById`.
* `server/routes/adminRoutes.js`: the ordered layer table of the router.
-/

namespace SocialHub

/-! ## Profile page: data -/

/-- A file chosen in the avatar input; `objectUrl` is the value of
`URL.createObjectURL` for it. -/
structure File where
  name : String
  objectUrl : String
deriving DecidableEq, Repr

/-- The `formData` cell (Profile.jsx lines 10-15). -/
structure FormData where
  name : String
  email : String
  password : String
  avatar : Option File
deriving DecidableEq, Repr

/-- The user object resolved by `fetchUserProfile`, with the fields the page reads. -/
structure User where
  name : String
  email : String
  avatar : String
  role : String
  organizerApprovalStatus : String
deriving DecidableEq, Repr

/-- The body of an error response: `err.response.data`. -/
structure ErrorData where
  message : Option String
  retryAfter : Int
deriving DecidableEq, Repr

/-- A rejected request as the page reads it: `err.status` and `err.response`. -/
structure HttpError where
  status : Option Int
  response : Option ErrorData
deriving DecidableEq, Repr

/-- The argument of `updateUserProfile`: the form data with `avatar` overwritten. -/
structure ProfileUpdate where
  name : String
  email : String
  password : String
  avatar : String
deriving DecidableEq, Repr

/-- Calls made to collaborators (services, toast helpers, upload helper), in order. -/
inductive Call where
  | fetchUserProfile
  | uploadImageToCloudinary (file : File)
  | updateUserProfile (data : ProfileUpdate)
  | requestOrganizer
  | notifyError (msg : String)
  | notifySuccess (msg : String)
deriving DecidableEq, Repr

/-- The `useState` cells of `Profile` (lines 9-23 and 98). -/
structure State where
  loading : Bool
  formData : FormData
  avatarUrl : String
  preview : String
  role : String
  error : String
  submitting : Bool
  organizerRequest : String
  isRateLimited : Bool
  timeToLive : Int
  secondsLeft : Int
deriving DecidableEq, Repr

/-- Dependency values recorded by the last effects pass. -/
structure Deps where
  timeToLive : Int
  secondsLeft : Int
  isRateLimited : Bool
deriving DecidableEq, Repr

/-- The mounted component: its state, the bookkeeping of its effects, the
promises it is awaiting and the log of collaborator calls. -/
structure Page where
  st : State
  /-- Is `none` until the first effects pass (mount). -/
  deps : Option Deps
  /-- The `setTimeout` of the countdown effect (line 107) is armed. -/
  timer : Bool
  /-- Number of one-second timeouts that have fired. -/
  ticks : Nat
  /-- Pending `await fetchUserProfile()`. -/
  fetches : Nat
  /-- Pending `await uploadImageToCloudinary(..)`, each with the `formData` its
  `handleSubmit` closed over. -/
  uploads : List FormData
  /-- Pending `await updateUserProfile(..)`. -/
  updates : Nat
  /-- Pending `await requestOrganizer()`. -/
  requests : Nat
  calls : List Call
deriving DecidableEq, Repr

/-- Initial values of the `useState` cells. -/
def State.init : State where
  loading := true
  formData := ⟨"", "", "", none⟩
  avatarUrl := ""
  preview := ""
  role := ""
  error := ""
  submitting := false
  organizerRequest := ""
  isRateLimited := false
  timeToLive := 0
  secondsLeft := 0

/-- The component after its first render, before any effect has run. -/
def Page.init : Page where
  st := State.init
  deps := none
  timer := false
  ticks := 0
  fetches := 0
  uploads := []
  updates := 0
  requests := 0
  calls := []

/-! ## Profile page: handlers -/

/-- `fetchProfileData` up to its `await` (line 27). -/
def fetchProfileData (p : Page) : Page :=
  { p with fetches := p.fetches + 1, calls := p.calls ++ [Call.fetchUserProfile] }

/-- `fetchProfileData` from the `await` on (lines 27-41).  When `err.status` is
429 and `err.response` is undefined, line 35 throws inside the `catch` block:
lines 37-38 are skipped and `finally` still runs. -/
def fetchProfileData_settled (p : Page) (r : Except HttpError User) : Page :=
  match r with
  | .ok user =>
    { p with st := { p.st with
        formData := ⟨user.name, user.email, "", none⟩
        avatarUrl := user.avatar
        role := user.role
        organizerRequest := user.organizerApprovalStatus
        loading := false } }
  | .error err =>
    if err.status = some 429 then
      match err.response with
      | none => { p with st := { p.st with isRateLimited := true, loading := false } }
      | some data =>
        { p with
          st := { p.st with
            isRateLimited := true
            timeToLive := data.retryAfter
            error := "Failed to fetch profile"
            loading := false }
          calls := p.calls ++ [Call.notifyError "Failed to fetch profile"] }
    else
      { p with
        st := { p.st with error := "Failed to fetch profile", loading := false }
        calls := p.calls ++ [Call.notifyError "Failed to fetch profile"] }

/-- The name attribute of the two text inputs of the form. -/
inductive Field where
  | name
  | email
deriving DecidableEq, Repr

/-- `handleInputChange` for a text input (line 56). -/
def handleInputChange (s : State) (field : Field) (value : String) : State :=
  match field with
  | .name => { s with formData := { s.formData with name := value } }
  | .email => { s with formData := { s.formData with email := value } }

/-- `handleInputChange` for the avatar input (lines 52-54); `file` is `files[0]`,
undefined when the selection is empty, in which case line 54 throws after the
form update has been queued. -/
def handleInputChange_avatar (s : State) (file : Option File) : State :=
  match file with
  | some f => { s with formData := { s.formData with avatar := some f }, preview := f.objectUrl }
  | none => { s with formData := { s.formData with avatar := none } }

/-- The message stored by the two `catch` blocks (lines 78 and 91):
`err.response?.data?.message || 'Update failed. Please try again.'`. -/
def updateErrorMessage (err : HttpError) : String :=
  match err.response with
  | some data =>
    match data.message with
    | some m => if m = "" then "Update failed. Please try again." else m
    | none => "Update failed. Please try again."
  | none => "Update failed. Please try again."

/-- The `catch` and `finally` blocks shared by `handleSubmit` (lines 77-82) and
`handleOrganizerRequest` (lines 90-95). -/
def catchFinally (p : Page) (err : HttpError) : Page :=
  { p with
    st := { p.st with error := updateErrorMessage err, submitting := false }
    calls := p.calls ++ [Call.notifyError "Update failed. Please try again."] }

/-- The call of `updateUserProfile` at line 71 with the closed-over form data. -/
def callUpdate (p : Page) (fd : FormData) (updatedAvatar : String) : Page :=
  { p with
    updates := p.updates + 1
    calls := p.calls ++ [Call.updateUserProfile ⟨fd.name, fd.email, fd.password, updatedAvatar⟩] }

/-- `handleSubmit` up to its first `await` (lines 61-71). -/
def handleSubmit (p : Page) : Page :=
  let fd := p.st.formData
  let avatarUrl := p.st.avatarUrl
  let p1 := { p with st := { p.st with submitting := true, error := "" } }
  match fd.avatar with
  | some file =>
    { p1 with
      uploads := p1.uploads ++ [fd]
      calls := p1.calls ++ [Call.uploadImageToCloudinary file] }
  | none => callUpdate p1 fd avatarUrl

/-- `handleSubmit` when the upload awaited at line 68 settles; `fd` is the form
data of the render whose handler was invoked. -/
def handleSubmit_uploaded (p : Page) (fd : FormData) (r : Except HttpError String) : Page :=
  match r with
  | .ok url => callUpdate p fd url
  | .error err => catchFinally p err

/-- `handleSubmit` when `updateUserProfile` awaited at line 71 settles. -/
def handleSubmit_updated (p : Page) (r : Except HttpError Unit) : Page :=
  match r with
  | .ok _ =>
    { p with
      st := { p.st with submitting := false }
      calls := p.calls ++ [Call.notifySuccess "Profile Updated!"] }
  | .error err => catchFinally p err

/-- `handleOrganizerRequest` up to its `await` (line 87). -/
def handleOrganizerRequest (p : Page) : Page :=
  { p with requests := p.requests + 1, calls := p.calls ++ [Call.requestOrganizer] }

/-- `handleOrganizerRequest` when `requestOrganizer` settles (lines 88-95). -/
def handleOrganizerRequest_settled (p : Page) (r : Except HttpError Unit) : Page :=
  match r with
  | .ok _ =>
    { p with
      st := { p.st with organizerRequest := "pending", submitting := false }
      calls := p.calls ++ [Call.notifySuccess "Organizer Request Sent!"] }
  | .error err => catchFinally p err

/-! ## Profile page: rendering -/

/-- The `onClick` handlers a rendered organizer button can carry. -/
inductive Handler where
  | handleOrganizerRequest
deriving DecidableEq, Repr

/-- A rendered button of the organizer block: its text and its `onClick`. -/
structure Button where
  label : String
  onClick : Option Handler
deriving DecidableEq, Repr

/-- The three conditional buttons of lines 202-216, in document order. -/
def organizerButtons (role organizerRequest : String) : List Button :=
  (if role = "Participant" ∧ organizerRequest = "not applied" then
    [⟨"Request Organizer Role", some Handler.handleOrganizerRequest⟩] else []) ++
  (if role = "Participant" ∧ organizerRequest = "rejected" then
    [⟨"Rejected, Re-Apply", some Handler.handleOrganizerRequest⟩] else []) ++
  (if role = "Participant" ∧ organizerRequest = "pending" then
    [⟨"Organizer Request Pending", none⟩] else [])

/-- What the ready view (lines 135-220) shows. -/
structure ProfileForm where
  avatarSrc : String
  name : String
  email : String
  avatarLabel : String
  submitDisabled : Bool
  submitLabel : String
  role : String
  buttons : List Button
deriving DecidableEq, Repr

/-- The four things `Profile` can return (lines 121-135). -/
inductive View where
  | spinner
  | rateLimited (secondsLeft : Int)
  | failure (message : String)
  | ready (form : ProfileForm)
deriving DecidableEq, Repr

/-- The ready view for a state (lines 135-220). -/
def renderForm (s : State) : ProfileForm where
  avatarSrc :=
    if s.preview ≠ "" then s.preview
    else if s.avatarUrl ≠ "" then s.avatarUrl
    else "/default-avatar.png"
  name := s.formData.name
  email := s.formData.email
  avatarLabel :=
    match s.formData.avatar with
    | some f => f.name
    | none => "Change Avatar"
  submitDisabled := s.submitting
  submitLabel := if s.submitting then "Saving..." else "Save Changes"
  role := s.role
  buttons := organizerButtons s.role s.organizerRequest

/-- The return value of `Profile` for a state (lines 121-135). -/
def render (s : State) : View :=
  if s.loading then View.spinner
  else if s.isRateLimited then View.rateLimited s.secondsLeft
  else if s.error ≠ "" then View.failure s.error
  else View.ready (renderForm s)

/-! ## Profile page: effects and events -/

/-- One pass of the four `useEffect` callbacks after a render with state `p.st`
(lines 44-46, 100-102, 104-112, 114-119).  A callback runs on mount and
whenever one of its dependencies differs from the value of the previous pass;
each callback reads the cells of this render, and the updates it makes show in
the next state. -/
def commitEffects (p : Page) : Page :=
  let s := p.st
  let mount := p.deps.isNone
  let ttlChanged := match p.deps with
    | none => true
    | some d => decide (d.timeToLive ≠ s.timeToLive)
  let slChanged := match p.deps with
    | none => true
    | some d => decide (d.secondsLeft ≠ s.secondsLeft)
  let rlChanged := match p.deps with
    | none => true
    | some d => decide (d.isRateLimited ≠ s.isRateLimited)
  -- lines 44-46: dependencies []
  let p1 := if mount then fetchProfileData p else p
  -- lines 100-102: dependencies [timeToLive]
  let p2 := if ttlChanged then { p1 with st := { p1.st with secondsLeft := s.timeToLive } } else p1
  -- lines 104-112: dependencies [secondsLeft]; the cleanup clears the old timeout
  let p3 := if slChanged then { p2 with timer := decide (¬ s.secondsLeft ≤ 0) } else p2
  -- lines 114-119: dependencies [secondsLeft, isRateLimited]
  let p4 :=
    if slChanged || rlChanged then
      if s.secondsLeft = 0 ∧ s.isRateLimited = true then
        let q := fetchProfileData p3
        { q with st := { q.st with isRateLimited := false } }
      else p3
    else p3
  { p4 with deps := some ⟨s.timeToLive, s.secondsLeft, s.isRateLimited⟩ }

/-- The timeout callback of line 108. -/
def tick (p : Page) : Page :=
  { p with
    st := { p.st with secondsLeft := p.st.secondsLeft - 1 }
    timer := false
    ticks := p.ticks + 1 }

/-- Everything that can happen to the mounted page. -/
inductive Event where
  /-- The effects of the latest render run. -/
  | effects
  /-- The armed one-second timeout fires. -/
  | tick
  /-- The user edits the name or email input. -/
  | input (field : Field) (value : String)
  /-- The user changes the avatar input. -/
  | pickAvatar (file : Option File)
  /-- The form is submitted. -/
  | submit
  /-- The user clicks the organizer button with this text. -/
  | click (label : String)
  /-- A pending `fetchUserProfile` settles. -/
  | fetchSettled (r : Except HttpError User)
  /-- The pending upload number `i` settles. -/
  | uploadSettled (i : Nat) (r : Except HttpError String)
  /-- A pending `updateUserProfile` settles. -/
  | updateSettled (r : Except HttpError Unit)
  /-- A pending `requestOrganizer` settles. -/
  | requestSettled (r : Except HttpError Unit)

/-- One event on the page; `none` when the event cannot happen in this state:
no armed timeout, no promise of that kind pending, or the control is not
rendered (or is disabled) in the current view. -/
def step (p : Page) : Event → Option Page
  | .effects => some (commitEffects p)
  | .tick => if p.timer then some (tick p) else none
  | .input field value =>
    match render p.st with
    | .ready _ => some { p with st := handleInputChange p.st field value }
    | _ => none
  | .pickAvatar file =>
    match render p.st with
    | .ready _ => some { p with st := handleInputChange_avatar p.st file }
    | _ => none
  | .submit =>
    match render p.st with
    | .ready form => if form.submitDisabled then none else some (handleSubmit p)
    | _ => none
  | .click label =>
    match render p.st with
    | .ready form =>
      match form.buttons.find? (fun b => b.label = label) with
      | some b =>
        match b.onClick with
        | some Handler.handleOrganizerRequest => some (handleOrganizerRequest p)
        | none => some p
      | none => none
    | _ => none
  | .fetchSettled r =>
    if 0 < p.fetches then
      some (fetchProfileData_settled { p with fetches := p.fetches - 1 } r)
    else none
  | .uploadSettled i r =>
    match p.uploads[i]? with
    | some fd => some (handleSubmit_uploaded { p with uploads := p.uploads.eraseIdx i } fd r)
    | none => none
  | .updateSettled r =>
    if 0 < p.updates then
      some (handleSubmit_updated { p with updates := p.updates - 1 } r)
    else none
  | .requestSettled r =>
    if 0 < p.requests then
      some (handleOrganizerRequest_settled { p with requests := p.requests - 1 } r)
    else none

/-- A sequence of events, left to right; `none` as soon as one cannot happen. -/
def run (p : Page) : List Event → Option Page
  | [] => some p
  | e :: es => (step p e).bind (fun q => run q es)

/-- States the page can be in: those reached from the first render. -/
def Reachable (p : Page) : Prop :=
  ∃ es : List Event, run Page.init es = some p

end SocialHub

namespace SocialHub

/-! ## Event service client (client/src/services/eventService.js) -/

/-- The constant of line 3. -/
def API_URL : String := "https://the-social-hub-vbmw.onrender.com"

/-- One `axios.get` call: the URL and the `params` of its config, if any. -/
structure GetRequest (P : Type) where
  url : String
  params : Option P
deriving DecidableEq, Repr

/-- The part of an axios response the service reads. -/
structure Response (D : Type) where
  data : D
deriving DecidableEq, Repr

/-- An `async` function over `axios.get`: given what the network answers to each
request and the requests issued so far, it resolves or rejects, and leaves the
longer list of requests. -/
def Http (P E D α : Type) : Type :=
  (GetRequest P → Except E (Response D)) → List (GetRequest P) → Except E α × List (GetRequest P)

/-- A function that returns `a` without a request. -/
def Http.pure {P E D α : Type} (a : α) : Http P E D α :=
  fun _ log => (.ok a, log)

/-- The `await` of `m` followed by `f`; a rejection of `m` is thrown on untouched. -/
def Http.bind {P E D α β : Type} (m : Http P E D α) (f : α → Http P E D β) : Http P E D β :=
  fun net log =>
    match m net log with
    | (.ok a, log1) => f a net log1
    | (.error e, log1) => (.error e, log1)

instance {P E D : Type} : Monad (Http P E D) where
  pure := Http.pure
  bind := Http.bind

/-- The call `axios.get(url, config)`: one request, answered by the network. -/
def axios_get {P E D : Type} (url : String) (params : Option P) : Http P E D (Response D) :=
  fun net log => (net ⟨url, params⟩, log ++ [⟨url, params⟩])

/-- `getAllEvents` (lines 5-8). -/
def getAllEvents {P E D : Type} (userData : P) : Http P E D D := do
  let response ← axios_get (API_URL ++ "/api/publicEvents") (some userData)
  return response.data

/-- `getEventById` (lines 10-13); `id` is the text the template literal inserts. -/
def getEventById {P E D : Type} (id : String) : Http P E D D := do
  let response ← axios_get (API_URL ++ "/api/publicEvents/" ++ id) none
  return response.data

/-! ## Admin router (server/routes/adminRoutes.js) -/

/-- HTTP request methods. -/
inductive Method where
  | GET
  | HEAD
  | POST
  | PUT
  | PATCH
  | DELETE
  | OPTIONS
deriving DecidableEq, Repr

/-- The user that authentication attaches to a request as `req.user`. -/
structure AuthUser where
  id : String
  role : String
deriving DecidableEq, Repr

/-- A request inside the router: its method, the segments of `req.path` between
the slashes that follow the leading one (a path that ends in a slash has the
last segment `""`), and `req.user`. -/
structure Request where
  method : Method
  path : List String
  user : Option AuthUser
deriving DecidableEq, Repr

/-- A segment of a route path: fixed text, or a named parameter such as `:id`. -/
inductive Segment where
  | lit (text : String)
  | param (name : String)
deriving DecidableEq, Repr

/-- The controller functions imported at lines 3-8. -/
inductive Controller where
  | getPendingOrganizerRequests
  | approveOrganizerRequest
  | rejectOrganizerRequest
  | getRegistrationsForEvent
deriving DecidableEq, Repr

/-- The middleware values used at lines 12 and 14. -/
inductive Middleware where
  | protect
  | authorize (roles : List String)
deriving DecidableEq, Repr

/-- A layer of the router stack: `router.use(mw)` or `router.METHOD(path, handler)`. -/
inductive Layer where
  | use (mw : Middleware)
  | route (method : Method) (path : List Segment) (handler : Controller)
deriving DecidableEq, Repr

/-- The router of lines 10-18, in registration order. -/
def router : List Layer :=
  [ Layer.use Middleware.protect,
    Layer.route Method.GET [.lit "events", .param "eventId", .lit "registrations"]
      Controller.getRegistrationsForEvent,
    Layer.use (Middleware.authorize ["Admin"]),
    Layer.route Method.GET [.lit "organizer-requests"] Controller.getPendingOrganizerRequests,
    Layer.route Method.PUT [.lit "users", .param "id", .lit "approve-organizer"]
      Controller.approveOrganizerRequest,
    Layer.route Method.PUT [.lit "users", .param "id", .lit "reject-organizer"]
      Controller.rejectOrganizerRequest ]

/-- Modelled from the spec: `protect` of `../middleware/authMiddleware` is not in
the sources.  It is the authentication check: `authenticate` stands for its
verification of the credentials of a request; on success the user is attached
as `req.user` and the request is passed on, otherwise the request is answered
with an authentication error and not passed on. -/
def protect (authenticate : Request → Option AuthUser) (req : Request) : Option Request :=
  match authenticate req with
  | some u => some { req with user := some u }
  | none => none

/-- Modelled from the spec: `authorize` of `../middleware/authMiddleware` is not
in the sources.  It is the role check: `authorize(...roles)` passes a request
on when its user holds one of `roles`, and otherwise answers with an
authorization error and does not pass it on. -/
def authorize (roles : List String) (req : Request) : Option Request :=
  match req.user with
  | some u => if u.role ∈ roles then some req else none
  | none => none

/-- Running one middleware value on a request. -/
def Middleware.run (authenticate : Request → Option AuthUser) : Middleware → Request → Option Request
  | .protect => SocialHub.protect authenticate
  | .authorize roles => SocialHub.authorize roles

/-- The text of a segment with its ASCII letters in lower case: the router is
created without options (line 10), so fixed text is compared without regard
to case. -/
def foldCase (s : String) : List Char := s.data.map Char.toLower

/-- The value of a hexadecimal digit. -/
def hexDigit (c : Char) : Option Nat :=
  if '0' ≤ c ∧ c ≤ '9' then some (c.toNat - 48)
  else if 'a' ≤ c ∧ c ≤ 'f' then some (c.toNat - 87)
  else if 'A' ≤ c ∧ c ≤ 'F' then some (c.toNat - 55)
  else none

/-- The byte of an escape `%XY` at the head of the text, and the text after it. -/
def percentByte : List Char → Option (Nat × List Char)
  | '%' :: a :: b :: rest =>
    match hexDigit a, hexDigit b with
    | some x, some y => some (16 * x + y, rest)
    | _, _ => none
  | _ => none

/-- The next `n` escapes, each a UTF-8 continuation byte (`10xxxxxx`): the code
point bits gathered onto `acc`, and the text after them. -/
def continuationBytes : Nat → Nat → List Char → Option (Nat × List Char)
  | 0, acc, cs => some (acc, cs)
  | n + 1, acc, cs =>
    match percentByte cs with
    | some (b, rest) =>
      if 128 ≤ b ∧ b < 192 then continuationBytes n (acc * 64 + (b - 128)) rest else none
    | none => none

/-- Does `decodeURIComponent` return on this text (rather than throw a
URIError): every percent sign starts an escape of two hexadecimal digits, and
the escaped bytes are ASCII or well-formed UTF-8 (no stray continuation byte, no
overlong form, no surrogate, nothing above U+10FFFF).  The first argument
bounds the number of steps; each step consumes at least one character. -/
def decodesAux : Nat → List Char → Bool
  | _, [] => true
  | 0, _ :: _ => false
  | fuel + 1, '%' :: cs =>
    match percentByte ('%' :: cs) with
    | none => false
    | some (b, rest) =>
      if b < 128 then decodesAux fuel rest
      else if b < 192 then false
      else if b < 224 then
        match continuationBytes 1 (b - 192) rest with
        | some (cp, rest1) => 128 ≤ cp && decodesAux fuel rest1
        | none => false
      else if b < 240 then
        match continuationBytes 2 (b - 224) rest with
        | some (cp, rest1) => 2048 ≤ cp && !(55296 ≤ cp && cp < 57344) && decodesAux fuel rest1
        | none => false
      else if b < 248 then
        match continuationBytes 3 (b - 240) rest with
        | some (cp, rest1) => 65536 ≤ cp && cp < 1114112 && decodesAux fuel rest1
        | none => false
      else false
  | fuel + 1, _ :: cs => decodesAux fuel cs

/-- Does the value of a route parameter decode. -/
def decodes (s : String) : Bool := decodesAux s.data.length s.data

/-- The request path without one trailing slash: the router is not strict. -/
def dropTrailingSlash : List String → List String
  | [] => []
  | [s] => if s = "" then [] else [s]
  | s :: ss => s :: dropTrailingSlash ss

/-- The segments of a request path against those of a route path: the same
number of segments, fixed text equal up to case, and a parameter taking any
non-empty segment; the result is the values taken by the parameters. -/
def matchSegments : List Segment → List String → Option (List String)
  | [], [] => some []
  | .lit t :: ps, s :: ss => if foldCase t = foldCase s then matchSegments ps ss else none
  | .param _ :: ps, s :: ss =>
    if s ≠ "" then (matchSegments ps ss).map (fun vals => s :: vals) else none
  | _, _ => none

/-- The three results of matching a layer against a path. -/
inductive MatchResult where
  | noMatch
  | matched
  | malformed
deriving DecidableEq, Repr

/-- Does a route path match the request path.  When the path has the shape of
the route, the values of its parameters are percent-decoded, and a value that
does not decode makes the match fail with an error of status 400 instead. -/
def matchPath (route : List Segment) (path : List String) : MatchResult :=
  match matchSegments route (dropTrailingSlash path) with
  | none => MatchResult.noMatch
  | some vals => if vals.all decodes then MatchResult.matched else MatchResult.malformed

/-- Does a route registered for `routeMethod` handle a request method: the same
method, and a GET route also answers HEAD. -/
def handlesMethod (routeMethod reqMethod : Method) : Bool :=
  reqMethod = routeMethod || (reqMethod = Method.HEAD && routeMethod = Method.GET)

/-- What happened to a request in the stack, in order. -/
inductive Trace where
  | passed (mw : Middleware)
  | rejected (mw : Middleware)
  | invoked (handler : Controller)
  | badRequest
deriving DecidableEq, Repr

/-- A request going down the stack.  A middleware either passes it to the next
layer or answers it.  A route layer is matched against the path first: a
parameter that does not decode puts the request in error with status 400, and
the layers below, none of which handles errors, are all skipped; a route whose
path matches and whose method is handled invokes its controller, which
answers.  A request that no route takes leaves the stack with no controller
invoked. -/
def dispatch (authenticate : Request → Option AuthUser) : List Layer → Request → List Trace
  | [], _ => []
  | .use mw :: rest, req =>
    match mw.run authenticate req with
    | some req1 => Trace.passed mw :: dispatch authenticate rest req1
    | none => [Trace.rejected mw]
  | .route m path handler :: rest, req =>
    match matchPath path req.path with
    | .malformed => [Trace.badRequest]
    | .matched =>
      if handlesMethod m req.method then [Trace.invoked handler]
      else dispatch authenticate rest req
    | .noMatch => dispatch authenticate rest req

/-- The last thing that happened to the request, if anything. -/
def outcome (authenticate : Request → Option AuthUser) (req : Request) : Option Trace :=
  (dispatch authenticate router req).getLast?

end SocialHub

namespace SocialHub

/-- Phases of the page with respect to loading the profile.  Before a fetch has
succeeded the role and status cells hold their initial values, no organizer
request is pending, and at most one of "a fetch is pending" and "the page is
rate-limited" holds.  After a fetch has succeeded no fetch is pending and the
page is not rate-limited, and an organizer request is pending only for a
Participant whose status is 'not applied', 'rejected' or 'pending'. -/
def Loaded (p : Page) : Prop :=
  (p.st.role = "" ∧ p.st.organizerRequest = "" ∧ p.requests = 0 ∧
    p.fetches + (if p.st.isRateLimited then 1 else 0) ≤ 1 ∧
    (p.deps = none → p.fetches = 0 ∧ p.st.isRateLimited = false)) ∨
  (p.deps ≠ none ∧ p.fetches = 0 ∧ p.st.isRateLimited = false ∧
    (0 < p.requests → p.st.role = "Participant" ∧
      (p.st.organizerRequest = "not applied" ∨ p.st.organizerRequest = "rejected" ∨
        p.st.organizerRequest = "pending")))

/-- The conclusion about one step: who starts an organizer request, and how the
status cell can change. -/
def StatusStep (p q : Page) (e : Event) : Prop :=
  (q.requests = p.requests + 1 →
    p.st.role = "Participant" ∧
      (p.st.organizerRequest = "not applied" ∨ p.st.organizerRequest = "rejected")) ∧
  (q.st.organizerRequest = p.st.organizerRequest ∨
    ((∃ user, e = Event.fetchSettled (.ok user)) ∧
      p.st.role = "" ∧ p.st.organizerRequest = "" ∧ p.requests = 0) ∨
    (e = Event.requestSettled (.ok ()) ∧ p.st.role = "Participant" ∧
      (p.st.organizerRequest = "not applied" ∨ p.st.organizerRequest = "rejected") ∧
      q.st.organizerRequest = "pending"))

end SocialHub

namespace SocialHub

/-! ## Profile page: a successful fetch fills the form -/

/-- C7: for every user object that `fetchUserProfile` resolves with, the state
after `fetchProfileData` has `formData.name = user.name`, `formData.email =
user.email`, `formData.password = ''`, `formData.avatar = null`, `avatarUrl =
user.avatar`, `role = user.role`, `organizerRequest =
user.organizerApprovalStatus` and `loading = false`, while `isRateLimited` and
`timeToLive` (and every other cell) keep their values. -/
theorem fetchProfileData_success (p : Page) (user : User) :
    let q := fetchProfileData_settled p (.ok user)
    q.st.formData.name = user.name ∧
    q.st.formData.email = user.email ∧
    q.st.formData.password = "" ∧
    q.st.formData.avatar = none ∧
    q.st.avatarUrl = user.avatar ∧
    q.st.role = user.role ∧
    q.st.organizerRequest = user.organizerApprovalStatus ∧
    q.st.loading = false ∧
    q.st.isRateLimited = p.st.isRateLimited ∧
    q.st.timeToLive = p.st.timeToLive ∧
    q.st.secondsLeft = p.st.secondsLeft ∧
    q.st.error = p.st.error ∧
    q.st.submitting = p.st.submitting ∧
    q.st.preview = p.st.preview ∧
    q.calls = p.calls := by
  simp [fetchProfileData_settled]

/-! ## Profile page: organizer buttons -/

/-- C4: which organizer button the ready view renders is a function of
`(role, organizerRequest)` alone.  A button wired to `handleOrganizerRequest`
is rendered exactly when the role is 'Participant' and the status is
'not applied' or 'rejected', and it is the "Request Organizer Role" button in
the first case and the "Rejected, Re-Apply" button in the second; the
"Organizer Request Pending" button is rendered exactly when the role is
'Participant' and the status is 'pending', and it is the only button without
a click action; at most one button is rendered. -/
theorem organizerButtons_spec (s : State) (role status : String) :
    (renderForm s).buttons = organizerButtons s.role s.organizerRequest ∧
    ((∃ b ∈ organizerButtons role status, b.onClick = some Handler.handleOrganizerRequest) ↔
      (role = "Participant" ∧ (status = "not applied" ∨ status = "rejected"))) ∧
    (⟨"Request Organizer Role", some Handler.handleOrganizerRequest⟩ ∈ organizerButtons role status ↔
      (role = "Participant" ∧ status = "not applied")) ∧
    (⟨"Rejected, Re-Apply", some Handler.handleOrganizerRequest⟩ ∈ organizerButtons role status ↔
      (role = "Participant" ∧ status = "rejected")) ∧
    (⟨"Organizer Request Pending", none⟩ ∈ organizerButtons role status ↔
      (role = "Participant" ∧ status = "pending")) ∧
    (∀ b ∈ organizerButtons role status,
      (b.onClick = none ↔ b.label = "Organizer Request Pending") ∧
      (b.label = "Request Organizer Role" ∨ b.label = "Rejected, Re-Apply" ∨
        b.label = "Organizer Request Pending")) ∧
    (organizerButtons role status).length ≤ 1 := by
  refine ⟨rfl, ?_⟩
  by_cases hr : role = "Participant"
  · by_cases h1 : status = "not applied"
    · subst hr h1; simp [organizerButtons]
    · by_cases h2 : status = "rejected"
      · subst hr h2; simp [organizerButtons]
      · by_cases h3 : status = "pending"
        · subst hr h3; simp [organizerButtons]
        · simp [organizerButtons, hr, h1, h2, h3]
  · simp [organizerButtons, hr]

end SocialHub

namespace SocialHub

/-! ## Event service client: pass-through -/

/-- C10: the event service client is a stateless pass-through.  Whatever the
network answers, `getAllEvents userData` issues exactly one GET, to
`API_URL + '/api/publicEvents'` with `userData` as `params`, and
`getEventById id` exactly one GET, to `API_URL + '/api/publicEvents/' + id`;
each resolves with exactly `response.data` when the request succeeds and
rejects with the very error of the request when it fails; no second request is
made in either case. -/
theorem eventService_passThrough {P E D : Type} (net : GetRequest P → Except E (Response D))
    (userData : P) (id : String) :
    getAllEvents userData net [] =
      ((match net ⟨"https://the-social-hub-vbmw.onrender.com/api/publicEvents", some userData⟩ with
        | .ok response => .ok response.data
        | .error err => .error err),
       [⟨"https://the-social-hub-vbmw.onrender.com/api/publicEvents", some userData⟩]) ∧
    getEventById id net [] =
      ((match net ⟨"https://the-social-hub-vbmw.onrender.com/api/publicEvents/" ++ id, none⟩ with
        | .ok response => .ok response.data
        | .error err => .error err),
       [⟨"https://the-social-hub-vbmw.onrender.com/api/publicEvents/" ++ id, none⟩]) := by
  have h1 : API_URL ++ "/api/publicEvents" =
      "https://the-social-hub-vbmw.onrender.com/api/publicEvents" := by decide
  have h2 : API_URL ++ "/api/publicEvents/" =
      "https://the-social-hub-vbmw.onrender.com/api/publicEvents/" := by decide
  constructor
  · show Http.bind (axios_get (API_URL ++ "/api/publicEvents") (some userData))
      (fun response => Http.pure response.data) net [] = _
    rw [h1]
    unfold Http.bind axios_get Http.pure
    cases net ⟨"https://the-social-hub-vbmw.onrender.com/api/publicEvents", some userData⟩ <;> rfl
  · show Http.bind (axios_get (API_URL ++ "/api/publicEvents/" ++ id) none)
      (fun response => Http.pure response.data) net [] = _
    rw [h2]
    unfold Http.bind axios_get Http.pure
    cases net ⟨"https://the-social-hub-vbmw.onrender.com/api/publicEvents/" ++ id, none⟩ <;> rfl

/-! ## Admin router: who reaches which controller -/

/-- A path that has the shape of a route has as many segments as the route. -/
lemma matchSegments_length {route : List Segment} {path vals : List String}
    (h : matchSegments route path = some vals) : path.length = route.length := by
  induction route generalizing path vals with
  | nil =>
    cases path with
    | nil => rfl
    | cons s ss => simp [matchSegments] at h
  | cons seg ps ih =>
    cases path with
    | nil => cases seg <;> simp [matchSegments] at h
    | cons s ss =>
      cases seg with
      | lit t =>
        simp only [matchSegments] at h
        split_ifs at h
        simp [ih h]
      | param name =>
        simp only [matchSegments] at h
        split_ifs at h
        cases hm : matchSegments ps ss with
        | none => simp [hm] at h
        | some vs => simp [ih hm]

/-- Routes with different numbers of segments do not both take a path, and the
longer or shorter one does not try to decode anything. -/
lemma matchPath_noMatch_of_length {r1 r2 : List Segment} {path : List String}
    (h1 : matchPath r1 path = MatchResult.matched) (hlen : r1.length ≠ r2.length) :
    matchPath r2 path = MatchResult.noMatch := by
  unfold matchPath at h1 ⊢
  cases hm1 : matchSegments r1 (dropTrailingSlash path) with
  | none => simp [hm1] at h1
  | some v1 =>
    cases hm2 : matchSegments r2 (dropTrailingSlash path) with
    | none => rfl
    | some v2 =>
      have e1 := matchSegments_length hm1
      have e2 := matchSegments_length hm2
      exact absurd (e1.symm.trans e2) hlen

/-- A route layer fails the request on a parameter that does not decode, or
invokes its controller, or leaves the request to the layers below. -/
lemma dispatch_route (authenticate : Request → Option AuthUser) (m : Method)
    (path : List Segment) (handler : Controller) (rest : List Layer) (req : Request) :
    dispatch authenticate (Layer.route m path handler :: rest) req = [Trace.badRequest] ∨
    dispatch authenticate (Layer.route m path handler :: rest) req = [Trace.invoked handler] ∨
    dispatch authenticate (Layer.route m path handler :: rest) req =
      dispatch authenticate rest req := by
  simp only [dispatch]
  cases matchPath path req.path with
  | malformed => exact Or.inl rfl
  | matched =>
    cases handlesMethod m req.method with
    | true => exact Or.inr (Or.inl rfl)
    | false => exact Or.inr (Or.inr rfl)
  | noMatch => exact Or.inr (Or.inr rfl)

/-- The three routes registered after `authorize('Admin')`: a request ends there
with one of the three controllers invoked, with a parameter error, or with
nothing. -/
lemma dispatch_adminRoutes (authenticate : Request → Option AuthUser) (req : Request) :
    let t := dispatch authenticate
      [Layer.route Method.GET [.lit "organizer-requests"] Controller.getPendingOrganizerRequests,
       Layer.route Method.PUT [.lit "users", .param "id", .lit "approve-organizer"]
         Controller.approveOrganizerRequest,
       Layer.route Method.PUT [.lit "users", .param "id", .lit "reject-organizer"]
         Controller.rejectOrganizerRequest] req
    t = [] ∨ t = [Trace.badRequest] ∨
      t = [Trace.invoked Controller.getPendingOrganizerRequests] ∨
      t = [Trace.invoked Controller.approveOrganizerRequest] ∨
      t = [Trace.invoked Controller.rejectOrganizerRequest] := by
  intro t
  rcases dispatch_route authenticate Method.GET [.lit "organizer-requests"]
      Controller.getPendingOrganizerRequests _ req with h1 | h1 | h1
  · exact Or.inr (Or.inl h1)
  · exact Or.inr (Or.inr (Or.inl h1))
  · rcases dispatch_route authenticate Method.PUT [.lit "users", .param "id", .lit "approve-organizer"]
        Controller.approveOrganizerRequest _ req with h2 | h2 | h2
    · exact Or.inr (Or.inl (h1.trans h2))
    · exact Or.inr (Or.inr (Or.inr (Or.inl (h1.trans h2))))
    · rcases dispatch_route authenticate Method.PUT
          [.lit "users", .param "id", .lit "reject-organizer"]
          Controller.rejectOrganizerRequest [] req with h3 | h3 | h3
      · exact Or.inr (Or.inl ((h1.trans h2).trans h3))
      · exact Or.inr (Or.inr (Or.inr (Or.inr ((h1.trans h2).trans h3))))
      · exact Or.inl ((h1.trans h2).trans h3)

/-- The three layers at the head of the router, above any layers `rest`:
`protect`, the registrations route, `authorize('Admin')`. -/
lemma dispatch_head (authenticate : Request → Option AuthUser) (rest : List Layer)
    (req : Request) :
    dispatch authenticate
        (Layer.use Middleware.protect ::
          Layer.route Method.GET [.lit "events", .param "eventId", .lit "registrations"]
            Controller.getRegistrationsForEvent ::
          Layer.use (Middleware.authorize ["Admin"]) :: rest) req =
      match authenticate req with
      | none => [Trace.rejected Middleware.protect]
      | some u =>
        Trace.passed Middleware.protect ::
          (if matchPath [.lit "events", .param "eventId", .lit "registrations"] req.path =
              MatchResult.malformed then [Trace.badRequest]
          else if matchPath [.lit "events", .param "eventId", .lit "registrations"] req.path =
              MatchResult.matched ∧ handlesMethod Method.GET req.method = true then
            [Trace.invoked Controller.getRegistrationsForEvent]
          else if u.role = "Admin" then
            Trace.passed (Middleware.authorize ["Admin"]) ::
              dispatch authenticate rest { req with user := some u }
          else [Trace.rejected (Middleware.authorize ["Admin"])]) := by
  cases ha : authenticate req with
  | none => simp [dispatch, Middleware.run, protect, ha]
  | some u =>
    simp only [dispatch, Middleware.run, protect, ha, authorize, List.mem_singleton]
    cases hm : matchPath [.lit "events", .param "eventId", .lit "registrations"] req.path with
    | malformed => simp
    | matched =>
      cases hh : handlesMethod Method.GET req.method with
      | true => simp
      | false =>
        by_cases hadm : u.role = "Admin"
        · simp [hadm]
        · simp [hadm]
    | noMatch =>
      by_cases hadm : u.role = "Admin"
      · simp [hadm]
      · simp [hadm]

/-- The trace of a request through the router: `protect` first, then the
registrations route, then `authorize('Admin')`, then the three admin routes. -/
lemma dispatch_router (authenticate : Request → Option AuthUser) (req : Request) :
    dispatch authenticate router req =
      match authenticate req with
      | none => [Trace.rejected Middleware.protect]
      | some u =>
        Trace.passed Middleware.protect ::
          (if matchPath [.lit "events", .param "eventId", .lit "registrations"] req.path =
              MatchResult.malformed then [Trace.badRequest]
          else if matchPath [.lit "events", .param "eventId", .lit "registrations"] req.path =
              MatchResult.matched ∧ handlesMethod Method.GET req.method = true then
            [Trace.invoked Controller.getRegistrationsForEvent]
          else if u.role = "Admin" then
            Trace.passed (Middleware.authorize ["Admin"]) ::
              dispatch authenticate
                [Layer.route Method.GET [.lit "organizer-requests"]
                   Controller.getPendingOrganizerRequests,
                 Layer.route Method.PUT [.lit "users", .param "id", .lit "approve-organizer"]
                   Controller.approveOrganizerRequest,
                 Layer.route Method.PUT [.lit "users", .param "id", .lit "reject-organizer"]
                   Controller.rejectOrganizerRequest]
                { req with user := some u }
          else [Trace.rejected (Middleware.authorize ["Admin"])]) :=
  dispatch_head authenticate _ req

/-- The requests for `/organizer-requests`: one segment equal to that text up to
case, with or without a trailing slash. -/
lemma matchPath_organizerRequests (path : List String) :
    matchPath [.lit "organizer-requests"] path = MatchResult.matched ↔
      ∃ a, (path = [a] ∨ path = [a, ""]) ∧ foldCase "organizer-requests" = foldCase a := by
  rcases path with _ | ⟨a, _ | ⟨b, _ | ⟨c, rest⟩⟩⟩
  · simp [matchPath, dropTrailingSlash, matchSegments]
  · by_cases ha : a = ""
    · subst ha
      simp [matchPath, dropTrailingSlash, matchSegments]
      decide
    · by_cases hf : foldCase "organizer-requests" = foldCase a <;>
        simp [matchPath, dropTrailingSlash, matchSegments, ha, hf]
  · by_cases hb : b = ""
    · subst hb
      by_cases hf : foldCase "organizer-requests" = foldCase a <;>
        simp [matchPath, dropTrailingSlash, matchSegments, hf]
    · by_cases hf : foldCase "organizer-requests" = foldCase a <;>
        simp [matchPath, dropTrailingSlash, matchSegments, hb, hf]
  · by_cases hf : foldCase "organizer-requests" = foldCase a <;>
      simp [matchPath, dropTrailingSlash, matchSegments, hf]

/-- A request whose event id does not decode is answered with status 400 right
after `protect`, before `authorize('Admin')` and before any controller. -/
lemma dispatch_malformed_eventId (authenticate : Request → Option AuthUser)
    (req : Request) (u : AuthUser) (hauth : authenticate req = some u)
    (hm : matchPath [.lit "events", .param "eventId", .lit "registrations"] req.path =
      MatchResult.malformed) :
    dispatch authenticate router req = [Trace.passed Middleware.protect, Trace.badRequest] := by
  rw [dispatch_router, hauth]
  simp [hm]

/-- The requests for `/events/:eventId/registrations`: three segments, the first
and the third equal to the fixed text up to case, the second not empty and
decodable, with or without a trailing slash. -/
lemma matchPath_registrations (path : List String) :
    matchPath [.lit "events", .param "eventId", .lit "registrations"] path =
        MatchResult.matched ↔
      ∃ a id c, (path = [a, id, c] ∨ path = [a, id, c, ""]) ∧
        foldCase "events" = foldCase a ∧ id ≠ "" ∧ decodes id = true ∧
        foldCase "registrations" = foldCase c := by
  rcases path with _ | ⟨a, _ | ⟨b, _ | ⟨c, _ | ⟨d, _ | ⟨e, rest⟩⟩⟩⟩⟩
  · simp [matchPath, dropTrailingSlash, matchSegments]
  · by_cases ha : a = "" <;> simp [matchPath, dropTrailingSlash, matchSegments, ha]
  · by_cases hb : b = "" <;> simp [matchPath, dropTrailingSlash, matchSegments, hb]
  · by_cases hc : c = ""
    · subst hc
      have hne : foldCase "registrations" ≠ foldCase "" := by decide
      simp [matchPath, dropTrailingSlash, matchSegments, hne]
    · by_cases hf1 : foldCase "events" = foldCase a <;>
        by_cases hb : b = "" <;>
        by_cases hf3 : foldCase "registrations" = foldCase c <;>
        by_cases hd : decodes b = true <;>
        simp [matchPath, dropTrailingSlash, matchSegments, hc, hf1, hb, hf3, hd]
      exact ⟨_, _, _, ⟨rfl, rfl, rfl⟩, rfl, hb, hd, rfl⟩
  · by_cases hd4 : d = ""
    · subst hd4
      by_cases hf1 : foldCase "events" = foldCase a <;>
        by_cases hb : b = "" <;>
        by_cases hf3 : foldCase "registrations" = foldCase c <;>
        by_cases hd : decodes b = true <;>
        simp [matchPath, dropTrailingSlash, matchSegments, hf1, hb, hf3, hd]
      exact ⟨_, _, _, ⟨rfl, rfl, rfl⟩, rfl, hb, hd, rfl⟩
    · by_cases hf1 : foldCase "events" = foldCase a <;>
        by_cases hb : b = "" <;>
        by_cases hf3 : foldCase "registrations" = foldCase c <;>
        simp [matchPath, dropTrailingSlash, matchSegments, hf1, hb, hf3, hd4]
  · by_cases hf1 : foldCase "events" = foldCase a <;>
      by_cases hb : b = "" <;>
      by_cases hf3 : foldCase "registrations" = foldCase c <;>
      simp [matchPath, dropTrailingSlash, matchSegments, hf1, hb, hf3]

/-- An escape takes three characters. -/
lemma percentByte_length {cs rest : List Char} {b : Nat}
    (h : percentByte cs = some (b, rest)) : rest.length + 3 = cs.length := by
  unfold percentByte at h
  split at h
  · split at h
    · simp only [Option.some.injEq, Prod.mk.injEq] at h
      rw [← h.2]
      simp
    · cases h
  · cases h

/-- Continuation bytes leave no more text than there was. -/
lemma continuationBytes_length {n acc cp : Nat} {cs rest : List Char}
    (h : continuationBytes n acc cs = some (cp, rest)) : rest.length ≤ cs.length := by
  induction n generalizing acc cs with
  | zero =>
    simp only [continuationBytes, Option.some.injEq, Prod.mk.injEq] at h
    rw [← h.2]
  | succ n ih =>
    simp only [continuationBytes] at h
    cases hp : percentByte cs with
    | none => simp [hp] at h
    | some pr =>
      obtain ⟨b, r1⟩ := pr
      simp only [hp] at h
      split_ifs at h
      have h1 := ih h
      have h2 := percentByte_length hp
      omega

/-- The bound on the number of steps is never reached: any two bounds that are
at least the length of the text give the same answer. -/
lemma decodesAux_fuel (f1 f2 : Nat) (cs : List Char)
    (h1 : cs.length ≤ f1) (h2 : cs.length ≤ f2) : decodesAux f1 cs = decodesAux f2 cs := by
  induction f1 generalizing f2 cs with
  | zero =>
    cases cs with
    | nil => cases f2 <;> rfl
    | cons c cs => simp at h1
  | succ f1 ih =>
    cases cs with
    | nil => cases f2 <;> rfl
    | cons c cs =>
      cases f2 with
      | zero => simp at h2
      | succ f2 =>
        simp only [List.length_cons, Nat.add_le_add_iff_right] at h1 h2
        by_cases hc : c = '%'
        · subst hc
          simp only [decodesAux]
          cases hp : percentByte ('%' :: cs) with
          | none => rfl
          | some pr =>
            obtain ⟨b, rest⟩ := pr
            have hl := percentByte_length hp
            simp only [List.length_cons] at hl
            have key : ∀ (n acc : Nat), (match continuationBytes n acc rest with
                | some (cp, rest1) => decodesAux f1 rest1 = decodesAux f2 rest1
                | none => True) := by
              intro n acc
              cases hcb : continuationBytes n acc rest with
              | none => trivial
              | some pr1 =>
                obtain ⟨cp, rest1⟩ := pr1
                have := continuationBytes_length hcb
                exact ih f2 rest1 (by omega) (by omega)
            simp only
            split_ifs
            · exact ih f2 rest (by omega) (by omega)
            · rfl
            · have := key 1 (b - 192)
              cases hcb : continuationBytes 1 (b - 192) rest with
              | none => rfl
              | some pr1 =>
                rw [hcb] at this
                simp only at this ⊢
                rw [this]
            · have := key 2 (b - 224)
              cases hcb : continuationBytes 2 (b - 224) rest with
              | none => rfl
              | some pr1 =>
                rw [hcb] at this
                simp only at this ⊢
                rw [this]
            · have := key 3 (b - 240)
              cases hcb : continuationBytes 3 (b - 240) rest with
              | none => rfl
              | some pr1 =>
                rw [hcb] at this
                simp only at this ⊢
                rw [this]
            · rfl
        · have e1 : decodesAux (f1 + 1) (c :: cs) = decodesAux f1 cs := by
            rw [decodesAux]
            exact hc
          have e2 : decodesAux (f2 + 1) (c :: cs) = decodesAux f2 cs := by
            rw [decodesAux]
            exact hc
          rw [e1, e2]
          exact ih f2 cs h1 h2

end SocialHub

namespace SocialHub

/-- C2: for every authenticated GET request, with `u` the user that `protect`
attaches.  If the request is for `/organizer-requests` (its path matches that
route: the fixed text up to case, with or without a trailing slash), it passes
`protect`, and then reaches `getPendingOrganizerRequests` when the role of `u`
is Admin and is otherwise rejected by `authorize('Admin')` without reaching a
controller.  If the request is for `/events/:eventId/registrations` (its path
matches that route: the fixed text up to case, an event id that is not empty
and decodes, with or without a trailing slash), it reaches
`getRegistrationsForEvent` right after `protect`, whatever the role. -/
theorem router_authorization (authenticate : Request → Option AuthUser)
    (req : Request) (u : AuthUser)
    (hauth : authenticate req = some u) (hget : req.method = Method.GET) :
    (matchPath [.lit "organizer-requests"] req.path = MatchResult.matched →
      dispatch authenticate router req =
        (if u.role = "Admin" then
          [Trace.passed Middleware.protect, Trace.passed (Middleware.authorize ["Admin"]),
            Trace.invoked Controller.getPendingOrganizerRequests]
        else [Trace.passed Middleware.protect, Trace.rejected (Middleware.authorize ["Admin"])]) ∧
      outcome authenticate req =
        some (if u.role = "Admin" then Trace.invoked Controller.getPendingOrganizerRequests
          else Trace.rejected (Middleware.authorize ["Admin"]))) ∧
    (matchPath [.lit "events", .param "eventId", .lit "registrations"] req.path =
        MatchResult.matched →
      dispatch authenticate router req =
        [Trace.passed Middleware.protect, Trace.invoked Controller.getRegistrationsForEvent] ∧
      outcome authenticate req = some (Trace.invoked Controller.getRegistrationsForEvent)) := by
  have hh : handlesMethod Method.GET req.method = true := by rw [hget]; rfl
  constructor
  · intro hm
    have hno : matchPath [.lit "events", .param "eventId", .lit "registrations"] req.path =
        MatchResult.noMatch := matchPath_noMatch_of_length hm (by decide)
    have hreq : dispatch authenticate router req =
        (if u.role = "Admin" then
          [Trace.passed Middleware.protect, Trace.passed (Middleware.authorize ["Admin"]),
            Trace.invoked Controller.getPendingOrganizerRequests]
        else [Trace.passed Middleware.protect, Trace.rejected (Middleware.authorize ["Admin"])]) := by
      rw [dispatch_router, hauth]
      simp only [hno]
      by_cases hadm : u.role = "Admin"
      · simp [hadm, dispatch, hm, hh]
      · simp [hadm]
    refine ⟨hreq, ?_⟩
    unfold outcome
    rw [hreq]
    split <;> rfl
  · intro hm
    have hreg : dispatch authenticate router req =
        [Trace.passed Middleware.protect, Trace.invoked Controller.getRegistrationsForEvent] := by
      rw [dispatch_router, hauth]
      simp [hm, hh]
    refine ⟨hreg, ?_⟩
    unfold outcome
    rw [hreg]
    rfl

/-- C3: whenever a controller of the admin router is invoked, `protect` has
passed the request on before it; the registrations controller is invoked
right after `protect`, and each of the three controllers registered after
`authorize('Admin')` is invoked only after `protect` and then
`authorize('Admin')` have both passed the request on, in that order, which
happens only for an authenticated user whose role is Admin. -/
theorem controller_behind_middleware (authenticate : Request → Option AuthUser)
    (req : Request) (c : Controller)
    (h : Trace.invoked c ∈ dispatch authenticate router req) :
    (c = Controller.getRegistrationsForEvent ∧
      (∃ u, authenticate req = some u) ∧
      dispatch authenticate router req = [Trace.passed Middleware.protect, Trace.invoked c]) ∨
    ((c = Controller.getPendingOrganizerRequests ∨ c = Controller.approveOrganizerRequest ∨
        c = Controller.rejectOrganizerRequest) ∧
      (∃ u, authenticate req = some u ∧ u.role = "Admin") ∧
      dispatch authenticate router req =
        [Trace.passed Middleware.protect, Trace.passed (Middleware.authorize ["Admin"]),
          Trace.invoked c]) := by
  rw [dispatch_router] at h ⊢
  cases ha : authenticate req with
  | none => simp [ha] at h
  | some u =>
    simp only [ha] at h ⊢
    split_ifs at h ⊢ with h1 h2 h3
    · simp at h
    · simp at h
      subst h
      simp
    · have hcases := dispatch_adminRoutes authenticate { req with user := some u }
      simp only at hcases
      rcases hcases with ht | ht | ht | ht | ht <;> rw [ht] at h ⊢ <;> simp at h <;>
        subst h <;> simp [h3]
    · simp at h

/-- Witness for C2: an Organizer asks for the organizer requests, and for the
registrations of event 42 with the path in upper case and a trailing slash. -/
theorem router_authorization_witness :
    dispatch (fun _ => some ⟨"7", "Organizer"⟩) router ⟨Method.GET, ["organizer-requests"], none⟩ =
      [Trace.passed Middleware.protect, Trace.rejected (Middleware.authorize ["Admin"])] ∧
    dispatch (fun _ => some ⟨"7", "Organizer"⟩) router
        ⟨Method.GET, ["EVENTS", "42", "Registrations", ""], none⟩ =
      [Trace.passed Middleware.protect, Trace.invoked Controller.getRegistrationsForEvent] :=
  ⟨((router_authorization (fun _ => some ⟨"7", "Organizer"⟩)
      ⟨Method.GET, ["organizer-requests"], none⟩ ⟨"7", "Organizer"⟩ rfl rfl).1 (by decide)).1,
   ((router_authorization (fun _ => some ⟨"7", "Organizer"⟩)
      ⟨Method.GET, ["EVENTS", "42", "Registrations", ""], none⟩ ⟨"7", "Organizer"⟩ rfl rfl).2
        (by decide)).1⟩

/-- Witness for C3: an Admin approving the organizer request of user 9. -/
theorem controller_behind_middleware_witness :
    Trace.invoked Controller.approveOrganizerRequest ∈
        dispatch (fun _ => some ⟨"1", "Admin"⟩) router
          ⟨Method.PUT, ["users", "9", "approve-organizer"], none⟩ ∧
    dispatch (fun _ => some ⟨"1", "Admin"⟩) router
        ⟨Method.PUT, ["users", "9", "approve-organizer"], none⟩ =
      [Trace.passed Middleware.protect, Trace.passed (Middleware.authorize ["Admin"]),
        Trace.invoked Controller.approveOrganizerRequest] :=
  have hmem : Trace.invoked Controller.approveOrganizerRequest ∈
      dispatch (fun _ => some ⟨"1", "Admin"⟩) router
        ⟨Method.PUT, ["users", "9", "approve-organizer"], none⟩ := by decide
  ⟨hmem, (controller_behind_middleware _ _ _ hmem).elim
    (fun h => absurd h.1 (by decide)) (fun h => h.2.2)⟩

end SocialHub

namespace SocialHub

/-! ## Profile page: submitting the form -/

/-- The ready view is returned exactly for a loaded, not rate-limited, error-free state. -/
lemma render_ready {s : State} {form : ProfileForm} (h : render s = View.ready form) :
    form = renderForm s ∧ s.loading = false ∧ s.isRateLimited = false ∧ s.error = "" := by
  unfold render at h
  split at h
  · cases h
  · split at h
    · cases h
    · split at h
      · cases h
      · rename_i h1 h2 h3
        injection h with h
        simp_all

/-- The pending upload added last is at the end of the list. -/
lemma uploads_last (l : List FormData) (fd : FormData) :
    (l ++ [fd])[l.length]? = some fd ∧ (l ++ [fd]).eraseIdx l.length = l := by
  constructor
  · simp
  · rw [List.eraseIdx_append_of_length_le (le_refl _)]
    simp

/-- C6: `handleSubmit`, invoked from the form and followed until its promises
settle.  With `formData.avatar` empty it makes no call to
`uploadImageToCloudinary` and exactly one call to `updateUserProfile`, with the
name, email and password of the form and `avatar` equal to the current
`avatarUrl`.  With a file in `formData.avatar` it calls the upload once, first;
when the upload resolves it then calls `updateUserProfile` once with `avatar`
equal to the result of the upload, and when the upload rejects it makes no
call to `updateUserProfile`.  The only other calls are the toasts. -/
theorem handleSubmit_calls (p : Page) (form : ProfileForm)
    (hview : render p.st = View.ready form) (hsub : p.st.submitting = false)
    (uploaded : Except HttpError String) (updated : Except HttpError Unit) :
    match p.st.formData.avatar with
    | none =>
      ∃ q, run p [Event.submit, Event.updateSettled updated] = some q ∧
        q.calls = p.calls ++
          [Call.updateUserProfile
            ⟨p.st.formData.name, p.st.formData.email, p.st.formData.password, p.st.avatarUrl⟩,
           match updated with
           | .ok _ => Call.notifySuccess "Profile Updated!"
           | .error _ => Call.notifyError "Update failed. Please try again."] ∧
        q.uploads = p.uploads ∧ q.updates = p.updates
    | some file =>
      match uploaded with
      | .ok url =>
        ∃ q, run p [Event.submit, Event.uploadSettled p.uploads.length (.ok url),
            Event.updateSettled updated] = some q ∧
          q.calls = p.calls ++
            [Call.uploadImageToCloudinary file,
             Call.updateUserProfile
              ⟨p.st.formData.name, p.st.formData.email, p.st.formData.password, url⟩,
             match updated with
             | .ok _ => Call.notifySuccess "Profile Updated!"
             | .error _ => Call.notifyError "Update failed. Please try again."] ∧
          q.uploads = p.uploads ∧ q.updates = p.updates
      | .error err =>
        ∃ q, run p [Event.submit, Event.uploadSettled p.uploads.length (.error err)] = some q ∧
          q.calls = p.calls ++
            [Call.uploadImageToCloudinary file,
             Call.notifyError "Update failed. Please try again."] ∧
          q.uploads = p.uploads ∧ q.updates = p.updates := by
  obtain ⟨hform, -, -, -⟩ := render_ready hview
  have hdis : form.submitDisabled = false := by rw [hform]; exact hsub
  have hstep : step p Event.submit = some (handleSubmit p) := by
    simp [step, hview, hdis]
  have hrun : ∀ es, run p (Event.submit :: es) = run (handleSubmit p) es := by
    intro es
    simp only [run, hstep, Option.some_bind]
  cases hav : p.st.formData.avatar with
  | none =>
    simp only [hrun]
    cases updated <;>
      simp [run, step, handleSubmit, hav, callUpdate, handleSubmit_updated, catchFinally]
  | some file =>
    simp only [hrun]
    have hl := uploads_last p.uploads p.st.formData
    cases uploaded with
    | ok url =>
      simp only
      cases updated <;>
        simp [run, step, handleSubmit, hav, callUpdate, handleSubmit_updated, catchFinally,
          handleSubmit_uploaded, hl.1, hl.2]
    | error err =>
      simp [run, step, handleSubmit, hav, callUpdate, catchFinally,
          handleSubmit_uploaded, hl.1, hl.2]

/-- Witness for C6: a loaded form without a new avatar file is submitted and the
update succeeds. -/
theorem handleSubmit_calls_witness :
    ∃ q, run ⟨⟨false, ⟨"Ada", "ada@example.org", "", none⟩, "ada.png", "", "Participant", "",
          false, "not applied", false, 0, 0⟩, some ⟨0, 0, false⟩, false, 0, 0, [], 0, 0, []⟩
        [Event.submit, Event.updateSettled (.ok ())] = some q ∧
      q.calls = [] ++
        [Call.updateUserProfile ⟨"Ada", "ada@example.org", "", "ada.png"⟩,
         Call.notifySuccess "Profile Updated!"] ∧
      q.uploads = [] ∧ q.updates = 0 :=
  handleSubmit_calls
    ⟨⟨false, ⟨"Ada", "ada@example.org", "", none⟩, "ada.png", "", "Participant", "",
      false, "not applied", false, 0, 0⟩, some ⟨0, 0, false⟩, false, 0, 0, [], 0, 0, []⟩
    _ rfl rfl (.ok "") (.ok ())

end SocialHub

namespace SocialHub

/-! ## Profile page: the rate-limit countdown and the retry -/

/-- C1 (what the code does): after the first fetch is rejected with status 429
and `retryAfter = N`, the page shows the rate-limit screen with the countdown at
0, not at N; no timeout is armed, so the only event that can follow is the pass
of the effects, and in that very pass the retry effect (lines 114-119) reads
`secondsLeft = 0` with `isRateLimited = true`: `fetchProfileData` is called a
second time before a single tick, and `isRateLimited` is cleared.  The countdown
cell is set to N only by that same pass, when the rate-limit screen is already
replaced by the error screen. -/
theorem retry_before_countdown (N : Nat) (msg : Option String) :
    ∃ p1 p2,
      run Page.init [Event.effects,
        Event.fetchSettled (.error ⟨some 429, some ⟨msg, (N : Int)⟩⟩)] = some p1 ∧
      render p1.st = View.rateLimited 0 ∧
      (∀ e, (step p1 e).isSome → e = Event.effects) ∧
      step p1 Event.effects = some p2 ∧
      p2.calls.count Call.fetchUserProfile = 2 ∧
      p2.fetches = 1 ∧
      p2.ticks = 0 ∧
      p2.st.isRateLimited = false ∧
      p2.st.secondsLeft = N ∧
      render p2.st = View.failure "Failed to fetch profile" := by
  refine ⟨_, _, rfl, rfl, ?_, rfl, ?_⟩
  · intro e
    cases e <;> simp [step, render, fetchProfileData_settled, commitEffects, fetchProfileData,
      Page.init, State.init]
  · by_cases h : (0 : Int) = N
    · simp [commitEffects, fetchProfileData, fetchProfileData_settled, Page.init, State.init,
        render, ← h]
    · simp [commitEffects, fetchProfileData, fetchProfileData_settled, Page.init, State.init,
        render, h]

end SocialHub

namespace SocialHub

/-- The message stored by a `catch` block is never empty. -/
lemma updateErrorMessage_ne (err : HttpError) : updateErrorMessage err ≠ "" := by
  unfold updateErrorMessage
  split
  · split
    · split
      · decide
      · assumption
    · decide
  · decide

/-- Once an error message is stored, no event clears it: the only writer of the
empty string is `handleSubmit`, which needs the form, which the error hides. -/
lemma error_sticky {p q : Page} {e : Event} (h : step p e = some q) (he : p.st.error ≠ "") :
    q.st.error ≠ "" := by
  have hview : ∀ form, render p.st ≠ View.ready form := by
    intro form hf
    exact he (render_ready hf).2.2.2
  cases e with
  | effects =>
    simp only [step, Option.some.injEq] at h
    subst h
    simp only [commitEffects, fetchProfileData]
    split_ifs <;> exact he
  | tick =>
    simp only [step] at h
    split at h
    · simp only [Option.some.injEq] at h; subst h; exact he
    · cases h
  | input field value =>
    cases hr : render p.st with
    | ready form => exact absurd hr (hview form)
    | spinner => simp [step, hr] at h
    | rateLimited n => simp [step, hr] at h
    | failure m => simp [step, hr] at h
  | pickAvatar file =>
    cases hr : render p.st with
    | ready form => exact absurd hr (hview form)
    | spinner => simp [step, hr] at h
    | rateLimited n => simp [step, hr] at h
    | failure m => simp [step, hr] at h
  | submit =>
    cases hr : render p.st with
    | ready form => exact absurd hr (hview form)
    | spinner => simp [step, hr] at h
    | rateLimited n => simp [step, hr] at h
    | failure m => simp [step, hr] at h
  | click label =>
    cases hr : render p.st with
    | ready form => exact absurd hr (hview form)
    | spinner => simp [step, hr] at h
    | rateLimited n => simp [step, hr] at h
    | failure m => simp [step, hr] at h
  | fetchSettled r =>
    simp only [step] at h
    split at h
    · simp only [Option.some.injEq] at h
      subst h
      unfold fetchProfileData_settled
      split
      · exact he
      · split
        · split
          · exact he
          · simp
        · simp
    · cases h
  | uploadSettled i r =>
    simp only [step] at h
    split at h
    · simp only [Option.some.injEq] at h
      subst h
      cases r with
      | ok url => exact he
      | error err => exact updateErrorMessage_ne err
    · cases h
  | updateSettled r =>
    simp only [step] at h
    split at h
    · simp only [Option.some.injEq] at h
      subst h
      cases r with
      | ok u => exact he
      | error err => exact updateErrorMessage_ne err
    · cases h
  | requestSettled r =>
    simp only [step] at h
    split at h
    · simp only [Option.some.injEq] at h
      subst h
      cases r with
      | ok u => exact he
      | error err => exact updateErrorMessage_ne err
    · cases h

/-- No run clears a stored error message. -/
lemma error_sticky_run {es : List Event} {p q : Page} (h : run p es = some q)
    (he : p.st.error ≠ "") : q.st.error ≠ "" := by
  induction es generalizing p with
  | nil =>
    simp only [run, Option.some.injEq] at h
    subst h
    exact he
  | cons e es ih =>
    simp only [run] at h
    cases hs : step p e with
    | none => simp [hs] at h
    | some p1 =>
      simp only [hs, Option.some_bind] at h
      exact ih h (error_sticky hs he)

/-- C5 (what the code does): the first fetch is rejected with status 429 and
`retryAfter = N`, the automatic retry is made and resolves with `user`.  The
form data is filled from `user`, `loading` and `isRateLimited` are false, but
`error` still holds 'Failed to fetch profile' (line 37 runs for a 429 as well,
and the success branch never clears it), so the page returns the error screen
and not the form; and whatever happens afterwards, the form is never rendered
again. -/
theorem retry_success_shows_error (N : Nat) (msg : Option String) (user : User) :
    ∃ q,
      run Page.init [Event.effects,
        Event.fetchSettled (.error ⟨some 429, some ⟨msg, (N : Int)⟩⟩),
        Event.effects,
        Event.fetchSettled (.ok user)] = some q ∧
      q.calls.count Call.fetchUserProfile = 2 ∧
      q.fetches = 0 ∧
      q.st.formData = ⟨user.name, user.email, "", none⟩ ∧
      q.st.loading = false ∧
      q.st.isRateLimited = false ∧
      q.st.error = "Failed to fetch profile" ∧
      render q.st = View.failure "Failed to fetch profile" ∧
      ∀ es q1, run q es = some q1 → ∀ form, render q1.st ≠ View.ready form := by
  rcases N with _ | n
  · refine ⟨_, rfl, rfl, rfl, rfl, rfl, rfl, rfl, rfl, ?_⟩
    intro es q1 h form hf
    have hne : ("Failed to fetch profile" : String) ≠ "" := by decide
    exact error_sticky_run h hne (render_ready hf).2.2.2
  · refine ⟨_, rfl, rfl, rfl, rfl, rfl, rfl, rfl, rfl, ?_⟩
    intro es q1 h form hf
    have hne : ("Failed to fetch profile" : String) ≠ "" := by decide
    exact error_sticky_run h hne (render_ready hf).2.2.2

/-! ## Profile page: the submit control while an update is pending -/

/-- C8 (what the code does): a Participant whose status is 'not applied' submits
the form and, while `updateUserProfile` is pending, clicks "Request Organizer
Role"; when `requestOrganizer` resolves, the `finally` block of
`handleOrganizerRequest` (line 94) sets `submitting` to false.  The update is
still pending, the form is rendered with the submit button enabled, and a
second submit goes through: `updateUserProfile` has then been called twice with
the same data. -/
theorem submit_reenabled (name email avatar : String) :
    ∃ q q2,
      run Page.init [Event.effects,
        Event.fetchSettled (.ok ⟨name, email, avatar, "Participant", "not applied"⟩),
        Event.effects,
        Event.submit,
        Event.click "Request Organizer Role",
        Event.requestSettled (.ok ())] = some q ∧
      q.updates = 1 ∧
      q.st.submitting = false ∧
      render q.st = View.ready (renderForm q.st) ∧
      (renderForm q.st).submitDisabled = false ∧
      step q Event.submit = some q2 ∧
      q2.updates = 2 ∧
      q2.calls.count (Call.updateUserProfile ⟨name, email, "", avatar⟩) = 2 := by
  refine ⟨_, _, rfl, rfl, rfl, rfl, rfl, rfl, rfl, ?_⟩
  simp [commitEffects, fetchProfileData, fetchProfileData_settled, Page.init, State.init,
    handleSubmit, callUpdate, handleOrganizerRequest, handleOrganizerRequest_settled]

end SocialHub

namespace SocialHub

/-! ## Profile page: the organizer status on the client -/

/-- A rendered button that carries a handler is one of the two request buttons. -/
lemma organizerButtons_handler {role status : String} {b : Button} {h : Handler}
    (hb : b ∈ organizerButtons role status) (hh : b.onClick = some h) :
    role = "Participant" ∧ (status = "not applied" ∨ status = "rejected") := by
  unfold organizerButtons at hb
  simp only [List.mem_append] at hb
  rcases hb with (hb | hb) | hb
  · split at hb
    · rename_i hc; exact ⟨hc.1, Or.inl hc.2⟩
    · cases hb
  · split at hb
    · rename_i hc; exact ⟨hc.1, Or.inr hc.2⟩
    · cases hb
  · split at hb
    · simp only [List.mem_singleton] at hb
      subst hb
      cases hh
    · cases hb

/-- What an effects pass leaves alone, and what it does to the pending fetches. -/
lemma commitEffects_frame (p : Page) :
    (commitEffects p).st.role = p.st.role ∧
    (commitEffects p).st.organizerRequest = p.st.organizerRequest ∧
    (commitEffects p).requests = p.requests ∧
    (commitEffects p).deps ≠ none ∧
    ((commitEffects p).fetches + (if (commitEffects p).st.isRateLimited then 1 else 0) =
      p.fetches + (if p.st.isRateLimited then 1 else 0) + (if p.deps = none then 1 else 0)) ∧
    (p.st.isRateLimited = false → (commitEffects p).st.isRateLimited = false ∧
      (commitEffects p).fetches = p.fetches + (if p.deps = none then 1 else 0)) := by
  cases hd : p.deps <;> cases hrl : p.st.isRateLimited <;>
    simp only [commitEffects, fetchProfileData, hd, hrl] <;> split_ifs <;> simp_all

end SocialHub

namespace SocialHub

/-- An event that leaves role, status, pending requests, pending fetches, the
rate-limit flag and the effect bookkeeping alone keeps the phase. -/
lemma loaded_of_frame {p q : Page} (hi : Loaded p)
    (h1 : q.st.role = p.st.role) (h2 : q.st.organizerRequest = p.st.organizerRequest)
    (h3 : q.requests = p.requests) (h4 : q.fetches = p.fetches)
    (h5 : q.st.isRateLimited = p.st.isRateLimited) (h6 : q.deps = p.deps) : Loaded q := by
  unfold Loaded
  rw [h1, h2, h3, h4, h5, h6]
  exact hi

/-- The fields the phase speaks of, after `handleSubmit`. -/
lemma handleSubmit_frame (p : Page) :
    (handleSubmit p).st.role = p.st.role ∧
    (handleSubmit p).st.organizerRequest = p.st.organizerRequest ∧
    (handleSubmit p).requests = p.requests ∧
    (handleSubmit p).fetches = p.fetches ∧
    (handleSubmit p).st.isRateLimited = p.st.isRateLimited ∧
    (handleSubmit p).deps = p.deps := by
  cases h : p.st.formData.avatar <;> simp [handleSubmit, h, callUpdate]

/-- The fields a failed fetch leaves alone. -/
lemma fetchProfileData_settled_error_frame (p : Page) (err : HttpError) :
    (fetchProfileData_settled p (.error err)).st.role = p.st.role ∧
    (fetchProfileData_settled p (.error err)).st.organizerRequest = p.st.organizerRequest ∧
    (fetchProfileData_settled p (.error err)).requests = p.requests ∧
    (fetchProfileData_settled p (.error err)).fetches = p.fetches ∧
    (fetchProfileData_settled p (.error err)).deps = p.deps := by
  by_cases h : err.status = some 429
  · cases hr : err.response <;> simp [fetchProfileData_settled, h, hr]
  · simp [fetchProfileData_settled, h]

/-- The fields the phase speaks of, after an upload settles. -/
lemma handleSubmit_uploaded_frame (p : Page) (fd : FormData) (r : Except HttpError String) :
    (handleSubmit_uploaded p fd r).st.role = p.st.role ∧
    (handleSubmit_uploaded p fd r).st.organizerRequest = p.st.organizerRequest ∧
    (handleSubmit_uploaded p fd r).requests = p.requests ∧
    (handleSubmit_uploaded p fd r).fetches = p.fetches ∧
    (handleSubmit_uploaded p fd r).st.isRateLimited = p.st.isRateLimited ∧
    (handleSubmit_uploaded p fd r).deps = p.deps := by
  cases r <;> simp [handleSubmit_uploaded, callUpdate, catchFinally]

/-- The fields the phase speaks of, after an update settles. -/
lemma handleSubmit_updated_frame (p : Page) (r : Except HttpError Unit) :
    (handleSubmit_updated p r).st.role = p.st.role ∧
    (handleSubmit_updated p r).st.organizerRequest = p.st.organizerRequest ∧
    (handleSubmit_updated p r).requests = p.requests ∧
    (handleSubmit_updated p r).fetches = p.fetches ∧
    (handleSubmit_updated p r).st.isRateLimited = p.st.isRateLimited ∧
    (handleSubmit_updated p r).deps = p.deps := by
  cases r <;> simp [handleSubmit_updated, catchFinally]

end SocialHub

namespace SocialHub

/-- Every event keeps the phase, and changes the status cell only by the first
successful fetch or by a successful organizer request of a Participant whose
status was 'not applied' or 'rejected'. -/
lemma loaded_step {p q : Page} {e : Event} (hi : Loaded p) (hs : step p e = some q) :
    Loaded q ∧ StatusStep p q e := by
  cases e with
  | effects =>
    simp only [step, Option.some.injEq] at hs
    subst hs
    obtain ⟨h1, h2, h3, h4, h5, h6⟩ := commitEffects_frame p
    refine ⟨?_, ?_, Or.inl h2⟩
    · unfold Loaded at hi ⊢
      rw [h1, h2, h3]
      rcases hi with ⟨a, b, c, d, e⟩ | ⟨a, b, c, d⟩
      · left
        refine ⟨a, b, c, ?_, fun hn => absurd hn h4⟩
        rw [h5]
        by_cases hd : p.deps = none
        · obtain ⟨e1, e2⟩ := e hd
          simp [hd, e1, e2]
        · simp only [hd, if_false]
          omega
      · right
        obtain ⟨e1, e2⟩ := h6 c
        refine ⟨h4, ?_, e1, d⟩
        rw [e2, b]
        simp [a]
    · intro hq
      rw [h3] at hq
      omega
  | tick =>
    simp only [step] at hs
    by_cases ht : p.timer = true
    · simp only [ht, if_true, Option.some.injEq] at hs
      subst hs
      exact ⟨loaded_of_frame hi rfl rfl rfl rfl rfl rfl,
        fun hq => absurd hq (by simp [tick]), Or.inl rfl⟩
    · simp [ht] at hs
  | input field value =>
    cases hr : render p.st with
    | ready form =>
      simp only [step, hr, Option.some.injEq] at hs
      subst hs
      cases field <;>
        exact ⟨loaded_of_frame hi rfl rfl rfl rfl rfl rfl,
          fun hq => absurd hq (by simp), Or.inl rfl⟩
    | spinner => simp [step, hr] at hs
    | rateLimited n => simp [step, hr] at hs
    | failure m => simp [step, hr] at hs
  | pickAvatar file =>
    cases hr : render p.st with
    | ready form =>
      simp only [step, hr, Option.some.injEq] at hs
      subst hs
      cases file <;>
        exact ⟨loaded_of_frame hi rfl rfl rfl rfl rfl rfl,
          fun hq => absurd hq (by simp), Or.inl rfl⟩
    | spinner => simp [step, hr] at hs
    | rateLimited n => simp [step, hr] at hs
    | failure m => simp [step, hr] at hs
  | submit =>
    cases hr : render p.st with
    | ready form =>
      simp only [step, hr] at hs
      cases hd : form.submitDisabled with
      | true => simp [hd] at hs
      | false =>
        simp only [hd, Bool.false_eq_true, if_false, Option.some.injEq] at hs
        subst hs
        obtain ⟨h1, h2, h3, h4, h5, h6⟩ := handleSubmit_frame p
        exact ⟨loaded_of_frame hi h1 h2 h3 h4 h5 h6,
          fun hq => absurd hq (by rw [h3]; omega), Or.inl h2⟩
    | spinner => simp [step, hr] at hs
    | rateLimited n => simp [step, hr] at hs
    | failure m => simp [step, hr] at hs
  | click label =>
    cases hr : render p.st with
    | ready form =>
      simp only [step, hr] at hs
      obtain ⟨hform, -, -, -⟩ := render_ready hr
      cases hf : form.buttons.find? (fun b => b.label = label) with
      | none => simp [hf] at hs
      | some b =>
        simp only [hf] at hs
        have hb : b ∈ organizerButtons p.st.role p.st.organizerRequest := by
          have := List.mem_of_find?_eq_some hf
          rw [hform] at this
          exact this
        cases ho : b.onClick with
        | none =>
          simp only [ho, Option.some.injEq] at hs
          subst hs
          exact ⟨hi, fun hq => absurd hq (by omega), Or.inl rfl⟩
        | some h =>
          cases h
          simp only [ho, Option.some.injEq] at hs
          subst hs
          obtain ⟨hrole, hstat⟩ := organizerButtons_handler hb ho
          refine ⟨?_, fun _ => ⟨hrole, hstat⟩, Or.inl rfl⟩
          unfold Loaded at hi ⊢
          rcases hi with ⟨a, _⟩ | ⟨a, b, c, _⟩
          · rw [hrole] at a
            exact absurd a (by decide)
          · right
            refine ⟨a, b, c, fun _ => ⟨hrole, ?_⟩⟩
            rcases hstat with h | h
            · exact Or.inl h
            · exact Or.inr (Or.inl h)
    | spinner => simp [step, hr] at hs
    | rateLimited n => simp [step, hr] at hs
    | failure m => simp [step, hr] at hs
  | fetchSettled r =>
    simp only [step] at hs
    by_cases hf : 0 < p.fetches
    · simp only [hf, if_true, Option.some.injEq] at hs
      subst hs
      unfold Loaded at hi
      rcases hi with ⟨a, b, c, d, e⟩ | ⟨a, b, c, d⟩
      · have hrl : p.st.isRateLimited = false := by
          cases h : p.st.isRateLimited
          · rfl
          · rw [h] at d; simp at d; omega
        have hfe : p.fetches = 1 := by
          rw [hrl] at d; simp at d; omega
        have hdep : p.deps ≠ none := fun hn => by
          have := (e hn).1
          omega
        cases r with
        | ok user =>
          refine ⟨Or.inr ⟨hdep, ?_, hrl, ?_⟩, ?_, Or.inr (Or.inl ⟨⟨user, rfl⟩, a, b, c⟩)⟩
          · simp [fetchProfileData_settled, hfe]
          · intro hq
            simp [fetchProfileData_settled, c] at hq
          · intro hq
            simp [fetchProfileData_settled] at hq
        | error err =>
          obtain ⟨h1, h2, h3, h4, h5⟩ :=
            fetchProfileData_settled_error_frame { p with fetches := p.fetches - 1 } err
          refine ⟨Or.inl ⟨by rw [h1]; exact a, by rw [h2]; exact b, by rw [h3]; exact c, ?_,
            fun hn => absurd (h5 ▸ hn) hdep⟩, fun hq => absurd hq (by rw [h3]; simp), Or.inl h2⟩
          rw [h4]
          simp only [hfe]
          split_ifs <;> omega
      · omega
    · simp [hf] at hs
  | uploadSettled i r =>
    simp only [step] at hs
    cases hu : p.uploads[i]? with
    | none => simp [hu] at hs
    | some fd =>
      simp only [hu, Option.some.injEq] at hs
      subst hs
      obtain ⟨h1, h2, h3, h4, h5, h6⟩ :=
        handleSubmit_uploaded_frame { p with uploads := p.uploads.eraseIdx i } fd r
      exact ⟨loaded_of_frame hi h1 h2 h3 h4 h5 h6,
        fun hq => absurd hq (by rw [h3]; simp), Or.inl h2⟩
  | updateSettled r =>
    simp only [step] at hs
    by_cases hf : 0 < p.updates
    · simp only [hf, if_true, Option.some.injEq] at hs
      subst hs
      obtain ⟨h1, h2, h3, h4, h5, h6⟩ :=
        handleSubmit_updated_frame { p with updates := p.updates - 1 } r
      exact ⟨loaded_of_frame hi h1 h2 h3 h4 h5 h6,
        fun hq => absurd hq (by rw [h3]; simp), Or.inl h2⟩
    · simp [hf] at hs
  | requestSettled r =>
    simp only [step] at hs
    by_cases hf : 0 < p.requests
    · simp only [hf, if_true, Option.some.injEq] at hs
      subst hs
      unfold Loaded at hi
      rcases hi with ⟨a, b, c, d, e⟩ | ⟨a, b, c, d⟩
      · omega
      · obtain ⟨hrole, hstat⟩ := d hf
        cases r with
        | ok u =>
          refine ⟨Or.inr ⟨a, b, c, fun _ => ⟨hrole, Or.inr (Or.inr rfl)⟩⟩, ?_, ?_⟩
          · intro hq
            simp [handleOrganizerRequest_settled] at hq
          · rcases hstat with h | h | h
            · exact Or.inr (Or.inr ⟨rfl, hrole, Or.inl h, rfl⟩)
            · exact Or.inr (Or.inr ⟨rfl, hrole, Or.inr h, rfl⟩)
            · left
              simp [handleOrganizerRequest_settled, h]
        | error err =>
          refine ⟨Or.inr ⟨a, b, c, fun _ => ⟨hrole, hstat⟩⟩, ?_, Or.inl rfl⟩
          intro hq
          simp [handleOrganizerRequest_settled, catchFinally] at hq
    · simp [hf] at hs

end SocialHub

namespace SocialHub

/-- The first render is in the not-yet-loaded phase. -/
lemma loaded_init : Loaded Page.init :=
  Or.inl ⟨rfl, rfl, rfl, by decide, fun _ => ⟨rfl, rfl⟩⟩

/-- A run keeps the phase. -/
lemma loaded_run {es : List Event} {p q : Page} (hi : Loaded p) (h : run p es = some q) :
    Loaded q := by
  induction es generalizing p with
  | nil =>
    simp only [run, Option.some.injEq] at h
    subst h
    exact hi
  | cons e es ih =>
    simp only [run] at h
    cases hs : step p e with
    | none => simp [hs] at h
    | some p1 =>
      simp only [hs, Option.some_bind] at h
      exact ih (loaded_step hi hs).1 h

/-- C9: on every reachable state of the page and for every event, the
`organizerRequest` cell changes only (i) by the first successful fetch, which
finds the cell at its initial value with no organizer request pending, or
(ii) by a successful `requestOrganizer`, which takes a Participant from
'not applied' or 'rejected' to 'pending'.  `handleOrganizerRequest` is started
only for a Participant whose status is 'not applied' or 'rejected'; a failed
request leaves the status unchanged; no step leaves 'pending' or 'approved'. -/
theorem organizerRequest_transitions (p q : Page) (e : Event)
    (hr : Reachable p) (hs : step p e = some q) :
    (q.requests = p.requests + 1 →
      p.st.role = "Participant" ∧
        (p.st.organizerRequest = "not applied" ∨ p.st.organizerRequest = "rejected")) ∧
    (q.st.organizerRequest = p.st.organizerRequest ∨
      ((∃ user, e = Event.fetchSettled (.ok user)) ∧
        p.st.role = "" ∧ p.st.organizerRequest = "" ∧ p.requests = 0) ∨
      (e = Event.requestSettled (.ok ()) ∧ p.st.role = "Participant" ∧
        (p.st.organizerRequest = "not applied" ∨ p.st.organizerRequest = "rejected") ∧
        q.st.organizerRequest = "pending")) ∧
    (∀ err, e = Event.requestSettled (.error err) →
      q.st.organizerRequest = p.st.organizerRequest) ∧
    (p.st.organizerRequest = "pending" → q.st.organizerRequest = "pending") ∧
    (p.st.organizerRequest = "approved" → q.st.organizerRequest = "approved") := by
  obtain ⟨es, hes⟩ := hr
  obtain ⟨-, hstart, hchange⟩ := loaded_step (loaded_run loaded_init hes) hs
  refine ⟨hstart, hchange, ?_, ?_, ?_⟩
  · intro err he
    rcases hchange with h | ⟨⟨user, hu⟩, -⟩ | ⟨h, -⟩
    · exact h
    · rw [he] at hu; cases hu
    · rw [he] at h; cases h
  · intro hp
    rcases hchange with h | ⟨-, -, h, -⟩ | ⟨-, -, h, -⟩
    · rw [h, hp]
    · rw [hp] at h; exact absurd h (by decide)
    · rw [hp] at h
      rcases h with h | h <;> exact absurd h (by decide)
  · intro hp
    rcases hchange with h | ⟨-, -, h, -⟩ | ⟨-, -, h, -⟩
    · rw [h, hp]
    · rw [hp] at h; exact absurd h (by decide)
    · rw [hp] at h
      rcases h with h | h <;> exact absurd h (by decide)

/-- Witness for C9: a rejected Participant re-applies and the request succeeds. -/
theorem organizerRequest_transitions_witness :
    ∃ p q : Page,
      run Page.init [Event.effects,
        Event.fetchSettled (.ok ⟨"Ada", "ada@example.org", "ada.png", "Participant", "rejected"⟩),
        Event.effects,
        Event.click "Rejected, Re-Apply"] = some p ∧
      step p (Event.requestSettled (.ok ())) = some q ∧
      p.st.organizerRequest = "rejected" ∧
      q.st.organizerRequest = "pending" ∧
      (p.st.organizerRequest = "pending" → q.st.organizerRequest = "pending") :=
  ⟨_, _, rfl, rfl, rfl, rfl,
    (organizerRequest_transitions _ _ (Event.requestSettled (.ok ()))
      ⟨[Event.effects,
        Event.fetchSettled (.ok ⟨"Ada", "ada@example.org", "ada.png", "Participant", "rejected"⟩),
        Event.effects,
        Event.click "Rejected, Re-Apply"], rfl⟩ rfl).2.2.2.1⟩

end SocialHub
